import Mathlib

/-!
Verification of the logcplus logging library (src/src/logcplus.h) against its
natural-language specification.

The embedding is shallow: each C++ entity used by a claim is translated into a
Lean definition that follows the source line by line.

Modelling conventions:
- `std::queue` inside `ConcurrentQueue` is a `List`, head first (`push` appends
  at the back, `front`/`pop` act on the head).
- `std::string` is `String` or `List Char` (for character-level parsing).
- Machine integers are `Nat`; where `std::uintmax_t` multiplication could wrap,
  the reduction modulo 2^64 is written explicitly.
- The ambient clock (`Date::currentTime`, `std::filesystem::file_size`,
  `last_write_time`) is passed as an explicit argument.
- Fallible code (C++ exceptions) returns `Option` or `Except`.
-/

namespace Logcplus

/-! ## ConcurrentQueue (logcplus.h lines 48-117)

The queue state is the list of stored items in queue order, head first. -/

structure ConcurrentQueue (T : Type) where
  items : List T
deriving DecidableEq, Repr

namespace ConcurrentQueue

/-- Translation of `ConcurrentQueue::take` (lines 59-62): returns
`queueContainer_.front()` without popping. `front()` on an empty
`std::queue` has no defined result, so the empty case maps to `none`. -/
def take {T : Type} (q : ConcurrentQueue T) : Option T :=
  q.items.head?

/-- Translation of `ConcurrentQueue::enqueue` (lines 68-72):
`queueContainer_.push(_queueItem)` appends at the back. -/
def enqueue {T : Type} (q : ConcurrentQueue T) (x : T) : ConcurrentQueue T :=
  ⟨q.items ++ [x]⟩

/-- Translation of `ConcurrentQueue::dequeue` (lines 78-90). The condition
variable wait guarantees the queue is non-empty when `front`/`pop` run; in
this sequential embedding that wait becomes the precondition `h`. -/
def dequeue {T : Type} (q : ConcurrentQueue T) (h : q.items ≠ []) :
    T × ConcurrentQueue T :=
  (q.items.head h, ⟨q.items.tail⟩)

end ConcurrentQueue

/-- An operation submitted to the queue: an enqueue of a given item, or a
dequeue. -/
inductive QueueOp (T : Type) where
  | enq : T → QueueOp T
  | deq : QueueOp T
deriving DecidableEq, Repr

/-- Sequential trace of a list of queue operations. Each `deq` on a non-empty
queue removes and outputs the head; a `deq` on an empty queue blocks in the
C++ code until an item arrives, so in a sequential trace it contributes no
output and leaves the state unchanged. Returns the final queue and the list of
dequeued items in output order. -/
def runQueueOps {T : Type} :
    ConcurrentQueue T → List (QueueOp T) → ConcurrentQueue T × List T
  | q, [] => (q, [])
  | q, QueueOp.enq x :: ops => runQueueOps (q.enqueue x) ops
  | ⟨[]⟩, QueueOp.deq :: ops => runQueueOps ⟨[]⟩ ops
  | ⟨y :: rest⟩, QueueOp.deq :: ops =>
      let r := runQueueOps ⟨rest⟩ ops
      (r.1, y :: r.2)

/-- Items enqueued by a list of operations, in submission order. -/
def enqueuedItems {T : Type} (ops : List (QueueOp T)) : List T :=
  ops.filterMap (fun op => match op with
    | QueueOp.enq x => some x
    | QueueOp.deq => none)

/-! ## Log levels and the Logger entry points (logcplus.h lines 1030-1127) -/

/-- Translation of `Logger::LogLevel` (line 1054): an enum class with
underlying values Debug = 0 .. Fatal = 4 in declaration order. -/
inductive LogLevel where
  | Debug | Info | Warn | Error | Fatal
deriving DecidableEq, Repr

/-- Underlying integral value of the `LogLevel` enum class (declaration order,
starting at 0), which is what the C++ `<=` on the enum compares. -/
def LogLevel.underlying : LogLevel → Nat
  | .Debug => 0
  | .Info => 1
  | .Warn => 2
  | .Error => 3
  | .Fatal => 4

/-- The C++ comparison `a <= b` on `Logger::LogLevel` values. -/
def levelLE (a b : LogLevel) : Bool :=
  a.underlying ≤ b.underlying

/-- Translation of `Logger::logTypeAsString` (lines 1346-1361). -/
def logTypeAsString : LogLevel → String
  | .Info => "INFO"
  | .Warn => "WARN"
  | .Debug => "DEBUG"
  | .Error => "ERROR"
  | .Fatal => "FATAL"

/-- Translation of `Logger::concatenateLogArguments` (lines 1316-1326): each
argument is appended to the accumulator as `" " + to_string(arg)`. Arguments
are already modelled as their string forms. -/
def concatenateLogArguments (args : List String) : String :=
  args.foldl (fun acc a => acc ++ " " ++ a) ""

/-- Line built by `Logger::log` (lines 1120-1127): the header
`"[" + logTypeAsString(level) + "]" + " " + currentTime + " -"` with the
concatenated body appended. `now` stands for `currentTime("%Y-%m-%d %X")`. -/
def formatLine (lvl : LogLevel) (now : String) (args : List String) : String :=
  "[" ++ logTypeAsString lvl ++ "]" ++ " " ++ now ++ " -"
    ++ concatenateLogArguments args

namespace Logger

/-- Translation of `Logger::log` (lines 1120-1127): formats the line and
enqueues it into `messageQueue_`, with no level check of its own. The queue of
pending lines is the explicit state. -/
def log (q : ConcurrentQueue String) (lvl : LogLevel) (now : String)
    (args : List String) : ConcurrentQueue String :=
  q.enqueue (formatLine lvl now args)

/-- Translation of `Logger::debug` (lines 1069-1074): calls `log` only when
`logLevel_ <= LogLevel::Debug`. `m` is the configured field `logLevel_`. -/
def debug (m : LogLevel) (q : ConcurrentQueue String) (now : String)
    (args : List String) : ConcurrentQueue String :=
  if levelLE m .Debug then log q .Debug now args else q

/-- Translation of `Logger::info` (lines 1079-1084). -/
def info (m : LogLevel) (q : ConcurrentQueue String) (now : String)
    (args : List String) : ConcurrentQueue String :=
  if levelLE m .Info then log q .Info now args else q

/-- Translation of `Logger::warn` (lines 1089-1094). -/
def warn (m : LogLevel) (q : ConcurrentQueue String) (now : String)
    (args : List String) : ConcurrentQueue String :=
  if levelLE m .Warn then log q .Warn now args else q

/-- Translation of `Logger::error` (lines 1099-1104). -/
def error (m : LogLevel) (q : ConcurrentQueue String) (now : String)
    (args : List String) : ConcurrentQueue String :=
  if levelLE m .Error then log q .Error now args else q

/-- Translation of `Logger::fatal` (lines 1109-1114). -/
def fatal (m : LogLevel) (q : ConcurrentQueue String) (now : String)
    (args : List String) : ConcurrentQueue String :=
  if levelLE m .Fatal then log q .Fatal now args else q

end Logger

/-! ## FileSize (logcplus.h lines 675-822) -/

/-- Translation of `FileSize::SizeUnit` (lines 676-678). -/
inductive SizeUnit where
  | B | KB | KiB | MB | MiB | GB | GiB
deriving DecidableEq, Repr

/-- Underlying integral value of the `SizeUnit` enum (lines 676-678). -/
def SizeUnit.value : SizeUnit → Nat
  | .B => 1
  | .KB => 1000
  | .KiB => 1024
  | .MB => 1000000
  | .MiB => 1048576
  | .GB => 1000000000
  | .GiB => 1073741824

structure FileSize where
  size : Nat
  unit : SizeUnit
deriving DecidableEq, Repr

/-- Default constructor `FileSize()` (line 680): size 1, unit B. -/
def FileSize.defaultValue : FileSize := ⟨1, .B⟩

/-- Translation of `FileSize::bsize` (lines 714-716): `size * unit` in
`std::uintmax_t` (64-bit) arithmetic, hence the explicit modulus. -/
def FileSize.bsize (f : FileSize) : Nat :=
  (f.size * f.unit.value) % 2 ^ 64

/-- Largest value of the C++ `int` type, which `std::stoi` enforces
(`std::out_of_range` beyond it). -/
def intMax : Nat := 2 ^ 31 - 1

/-- Numeric value of a list of decimal digit characters, most significant
digit first. -/
def natOfDigits (s : List Char) : Nat :=
  s.foldl (fun acc c => acc * 10 + (c.toNat - '0'.toNat)) 0

/-- Unit-token comparison chain of `FileSize::parseFileSize`
(lines 794-810). -/
def lookupSizeUnit (u : List Char) : Option SizeUnit :=
  if u = "B".toList then some .B
  else if u = "KB".toList then some .KB
  else if u = "KiB".toList then some .KiB
  else if u = "MB".toList then some .MB
  else if u = "MiB".toList then some .MiB
  else if u = "GB".toList then some .GB
  else if u = "GiB".toList then some .GiB
  else none

/-- Translation of `FileSize::parseFileSize` (lines 772-818). The first loop
computes `it`, the number of leading digit characters. Only when
`0 < it < length` does the function parse: `std::stoi` on the digit part (an
`std::out_of_range` above INT_MAX is caught by the enclosing try block and
yields `nullopt`), the `size <= 0` check of line 787, and the unit-table
match (unknown unit: `nullopt`, line 809). In every other case — including an
all-digit or empty input — the default-constructed `result` of line 773 is
returned as is. -/
def parseFileSize (s : List Char) : Option FileSize :=
  let it := (s.takeWhile Char.isDigit).length
  if 0 < it ∧ it < s.length then
    let n := natOfDigits (s.take it)
    if n > intMax then none
    else if n = 0 then none
    else
      match lookupSizeUnit (s.drop it) with
      | some u => some ⟨n, u⟩
      | none => none
  else some FileSize.defaultValue

/-! ## Date::Time and FileWatcher (logcplus.h lines 131-178, 938-1023) -/

/-- Translation of `Date::Time` (lines 131-178); the fields are C++ `int`. -/
structure Time where
  hour : Int
  minute : Int
  second : Int
deriving DecidableEq, Repr

/-- Translation of `FileWatcher::FileWatcherSettings` (lines 948-955) without
the watched path (the path only selects which file size is observed). -/
structure FileWatcherSettings where
  maxFileSize : FileSize
  checkPoint : Option Time
deriving DecidableEq, Repr

/-- Checkpoint test of line 1010-1012: a checkpoint is configured and its hour
and minute equal those of the current wall-clock time. -/
def checkPointMatches (s : FileWatcherSettings) (t : Time) : Bool :=
  match s.checkPoint with
  | some cp => cp.hour == t.hour && cp.minute == t.minute
  | none => false

/-- Translation of `FileWatcher::isTimeToCallback` (lines 999-1022), returning
the number of `callback_()` invocations made during the tick. `t` stands for
`Date::currentTime()` and `currFileSize` for the observed
`std::filesystem::file_size` of the watched file. The errorCode check at line
1003 compares a default-constructed `std::error_code` with itself and never
returns early. After the checkpoint branch (lines 1010-1015) the size
comparison at lines 1018-1021 runs unconditionally — there is no early return
between the two. -/
def isTimeToCallback (s : FileWatcherSettings) (t : Time)
    (currFileSize : Nat) : Nat :=
  (if checkPointMatches s t then 1 else 0)
    + (if currFileSize > s.maxFileSize.bsize then 1 else 0)

/-! ## LoggerConfigurator::parseRemoveLogsOlderThan and the load steps
(logcplus.h lines 1452-1592) -/

/-- Unit letters accepted by the regex `^(\d*)(S|M|H|d|w|m|y)$` of
line 1565. -/
def removeLogsUnits : List Char := ['S', 'M', 'H', 'd', 'w', 'm', 'y']

/-- Millisecond multiplier chain of lines 1573-1585. The final else branch
(years) is reached only for the letter y, because the regex restricts the
unit group. -/
def unitMillis (u : Char) : Nat :=
  if u = 'S' then 1000
  else if u = 'M' then 60000
  else if u = 'H' then 3600000
  else if u = 'd' then 86400000
  else if u = 'w' then 604800000
  else if u = 'm' then 2629746000
  else 31556952000

/-- Translation of `std::stoull` on a string the regex has constrained to
digits only: it throws `std::invalid_argument` when the string holds no
digits, `std::out_of_range` when the value exceeds `unsigned long long`. -/
def stoull (s : List Char) : Except String Nat :=
  if s = [] then .error "invalid_argument"
  else if natOfDigits s ≥ 2 ^ 64 then .error "out_of_range"
  else .ok (natOfDigits s)

/-- Translation of `LoggerConfigurator::parseRemoveLogsOlderThan`
(lines 1554-1592). The regex `^(\d*)(S|M|H|d|w|m|y)$` matches exactly when
the last character is a unit letter and everything before it is a digit (the
digit group may be empty); on a match, `std::stoull(match[1])` runs with no
surrounding try block, so its exceptions propagate (`Except.error`); the
product is `unsigned long long` arithmetic. On no match the function returns
0 (line 1591). -/
def parseRemoveLogsOlderThan (s : List Char) : Except String Nat :=
  match s.getLast? with
  | none => .ok 0
  | some u =>
    let ds := s.dropLast
    if u ∈ removeLogsUnits ∧ ds.all Char.isDigit then
      match stoull ds with
      | .error e => .error e
      | .ok n => .ok ((n * unitMillis u) % 2 ^ 64)
    else .ok 0

/-- Translation of the RemoveLogsOlderThan step of `LoggerConfigurator::load`
(lines 1475-1483): a non-zero parse replaces the default, a zero parse is
reported and the default kept. The surrounding try block catches only
`std::bad_any_cast` (line 1527), so an exception from `std::stoull` inside
`parseRemoveLogsOlderThan` escapes `load` — modelled as `Except.error`. -/
def loadRemoveLogsOlderThanStep (defaultVal : Nat) (value : List Char) :
    Except String Nat :=
  match parseRemoveLogsOlderThan value with
  | .error e => .error e
  | .ok v => if v ≠ 0 then .ok v else .ok defaultVal

/-- Translation of the MaxLogFileSize step of `LoggerConfigurator::load`
(lines 1464-1472) with `parseMaxLogFileSize` (lines 1546-1552) inlined: a
successful parse replaces the default, a failed one is reported and the
default kept. -/
def loadMaxLogFileSizeStep (defaultVal : FileSize) (value : List Char) :
    FileSize :=
  match parseFileSize value with
  | some r => r
  | none => defaultVal

/-! ## DirectoryWatcher (logcplus.h lines 17, 829-931) -/

/-- Single-character regex atom: the patterns involved
(`LOG_FILE_FORMAT`, line 17) contain only `\d`, bracketed literals, plain
literal characters and the any-character dot, each matching exactly one
character. -/
inductive CharClass where
  | digit
  | lit (c : Char)
  | anyChar
deriving DecidableEq, Repr

def CharClass.matchesChar : CharClass → Char → Bool
  | .digit, c => c.isDigit
  | .lit a, c => a == c
  | .anyChar, _ => true

/-- Anchored match (`std::regex_match`) of a fixed-length pattern: the whole
string must be consumed, one class per character. -/
def regexMatchFixed : List CharClass → List Char → Bool
  | [], [] => true
  | pc :: ps, c :: cs => pc.matchesChar c && regexMatchFixed ps cs
  | _, _ => false

/-- Compiled form of the macro `LOG_FILE_FORMAT`
`"\d{4}[-]\d{2}[-]\d{2}.log.\d"` (line 17): sixteen single-character atoms;
the two unescaped dots are the regex any-character. -/
def LOG_FILE_FORMAT : List CharClass :=
  [.digit, .digit, .digit, .digit, .lit '-', .digit, .digit, .lit '-',
   .digit, .digit, .anyChar, .lit 'l', .lit 'o', .lit 'g', .anyChar, .digit]

/-- Shape of the active sink filename created by `Logger::reopen` (line 1287):
`currentTime("%Y-%m-%d") + ".log"` — four digits, dash, two digits, dash, two
digits, then the literal `.log`, with no numeric suffix. -/
def dailyLogNamePattern : List CharClass :=
  [.digit, .digit, .digit, .digit, .lit '-', .digit, .digit, .lit '-',
   .digit, .digit, .lit '.', .lit 'l', .lit 'o', .lit 'g']

def isDailyLogName (s : List Char) : Bool :=
  regexMatchFixed dailyLogNamePattern s

/-- One regular or non-regular directory entry as the sweep observes it:
filename, age (`now - last_write_time`, already cast to the millisecond
duration the comparison uses) and the `is_regular_file` status. -/
structure DirFile where
  name : List Char
  ageMillis : Nat
  isRegularFile : Bool
deriving DecidableEq, Repr

/-- Translation of `DirectoryWatcher::isFileOlderThan` (lines 897-901):
`now - last_write_time > limit`, strict. -/
def isFileOlderThan (f : DirFile) (limit : Nat) : Bool :=
  f.ageMillis > limit

/-- Translation of `DirectoryWatcher::filesOlderThan` (lines 909-930): for
each enumerated entry, when the pattern string is non-empty a failed
`std::regex_match` skips the entry; then the entry is selected when it is a
regular file and older than the limit. An empty pattern string skips the
regex test entirely, so the pattern argument carries an emptiness flag via
`List.isEmpty`. -/
def filesOlderThan (files : List DirFile) (limit : Nat)
    (fileNameRegex : List CharClass) : List DirFile :=
  files.filter fun f =>
    (fileNameRegex.isEmpty || regexMatchFixed fileNameRegex f.name)
      && (f.isRegularFile && isFileOlderThan f limit)

/-- Deletion loop of `DirectoryWatcher::removeOldLogFiles` (lines 882-889):
the try block wraps the whole for loop, so the first
`std::filesystem::remove` that throws transfers control to the catch clause
(which reports) and the loop does not resume. `removeFails f = true` models
`remove(f)` throwing; a throwing remove deletes nothing. Returns the entries
actually removed, in order. -/
def removeLoop (removeFails : DirFile → Bool) : List DirFile → List DirFile
  | [] => []
  | f :: rest => if removeFails f then [] else f :: removeLoop removeFails rest

/-- Translation of `DirectoryWatcher::removeOldLogFiles` (lines 878-890): one
retention sweep — select with `filesOlderThan`, then run the deletion loop. -/
def removeOldLogFiles (files : List DirFile) (fileExpiration : Nat)
    (filePattern : List CharClass) (removeFails : DirFile → Bool) :
    List DirFile :=
  removeLoop removeFails (filesOlderThan files fileExpiration filePattern)

/-! ## Logger::reopen and its helpers (logcplus.h lines 1167-1310) -/

/-- Substring test `filename.find(_fileSought) != std::string::npos` used by
`Logger::anyFileExists` (line 1173). -/
def containsStr (name sought : String) : Bool :=
  decide (sought.toList <:+: name.toList)

/-- Translation of `Logger::anyFileExists` (lines 1167-1179): counts the
directory entries whose filename contains `_fileSought` as a substring. The
directory is modelled as its list of filenames. -/
def anyFileExists (dir : List String) (fileSought : String) : Nat :=
  (dir.filter fun name => containsStr name fileSought).length

/-- Effect of `Logger::initialize` (lines 1211-1248) on the set of files:
opening the full path with `ios::out | ios::app` creates the file when it is
absent and leaves an existing one in place. -/
def initializeFile (dir : List String) (filename : String) : List String :=
  if filename ∈ dir then dir else dir ++ [filename]

/-- Effect of `std::filesystem::rename(old, new)` (line 1305) on the
directory listing: the entry is renamed in place (filenames in one directory
are unique). -/
def renameFile (dir : List String) (oldName newName : String) : List String :=
  dir.map fun n => if n = oldName then newName else n

/-- Translation of `Logger::reopen` (lines 1277-1310) in file mode, acting on
the directory listing. `today` stands for `currentTime("%Y-%m-%d")`. The
collision count `anyFileExists(dir, filename)` is taken before any change;
when it is non-zero the existing `filename` is renamed with the suffix
`"." + count` before `initialize` creates the fresh file. A rename whose
source does not exist throws `std::filesystem_error`, modelled as
`Except.error`. -/
def reopen (dir : List String) (today : String) :
    Except String (List String) :=
  let filename := today ++ ".log"
  let count := anyFileExists dir filename
  if count ≠ 0 then
    if filename ∈ dir then
      .ok (initializeFile
            (renameFile dir filename (filename ++ "." ++ toString count))
            filename)
    else
      .error "filesystem_error: rename source does not exist"
  else
    .ok (initializeFile dir filename)

/-! ## Helper lemmas -/

/-- FIFO invariant of the queue: in any sequential trace, the dequeued outputs
followed by the remaining items equal the initial items followed by the
enqueued items in submission order. -/
theorem runQueueOps_fifo {T : Type} (q : ConcurrentQueue T)
    (ops : List (QueueOp T)) :
    (runQueueOps q ops).2 ++ (runQueueOps q ops).1.items
      = q.items ++ enqueuedItems ops := by
  induction ops generalizing q with
  | nil => simp [runQueueOps, enqueuedItems]
  | cons op ops ih =>
    cases op with
    | enq x =>
      have h := ih (q.enqueue x)
      simp only [runQueueOps, enqueuedItems, List.filterMap_cons] at h ⊢
      rw [h]
      simp [ConcurrentQueue.enqueue]
    | deq =>
      obtain ⟨items⟩ := q
      cases items with
      | nil =>
        have h := ih ⟨[]⟩
        simpa [runQueueOps, enqueuedItems, List.filterMap_cons] using h
      | cons y rest =>
        have h := ih ⟨rest⟩
        simp only [runQueueOps, enqueuedItems, List.filterMap_cons] at h ⊢
        simp [h]

/-! ## Claim theorems -/

/-- C6: `enqueue` always succeeds, appending the item at the back of any
queue with no capacity bound; `dequeue` on a non-empty queue removes and
returns the head; and along any sequential trace of enqueue and dequeue
operations the dequeued outputs followed by the remaining items equal the
initial items followed by the enqueued items in submission order, so items
come out in exactly the order they were enqueued — strict FIFO. -/
theorem enqueue_dequeue_strict_fifo (T : Type) :
    (∀ (q : ConcurrentQueue T) (x : T), (q.enqueue x).items = q.items ++ [x])
    ∧ (∀ (q : ConcurrentQueue T) (h : q.items ≠ []),
        q.dequeue h = (q.items.head h, ⟨q.items.tail⟩))
    ∧ (∀ (q : ConcurrentQueue T) (ops : List (QueueOp T)),
        (runQueueOps q ops).2 ++ (runQueueOps q ops).1.items
          = q.items ++ enqueuedItems ops) :=
  ⟨fun _ _ => rfl, fun _ _ => rfl, fun q ops => runQueueOps_fifo q ops⟩

/-- Witness for C6 at a concrete queue, discharging the non-emptiness
hypothesis of the dequeue part. -/
theorem enqueue_dequeue_strict_fifo_witness :
    (⟨[1, 2]⟩ : ConcurrentQueue ℕ).items ≠ []
    ∧ (⟨[1, 2]⟩ : ConcurrentQueue ℕ).dequeue (by decide) = (1, ⟨[2]⟩)
    ∧ ((⟨[1]⟩ : ConcurrentQueue ℕ).enqueue 2).items = [1] ++ [2] := by
  refine ⟨by decide, ?_, (enqueue_dequeue_strict_fifo ℕ).1 ⟨[1]⟩ 2⟩
  simpa using (enqueue_dequeue_strict_fifo ℕ).2.1 ⟨[1, 2]⟩ (by decide)

/-- C10: `take` reads the queue head with no emptiness check, so only on a
non-empty queue does it return the head element (and, being observationally
pure on the state, removes nothing); in this total embedding the empty-queue
case has no defined result, mapped to `none`. -/
theorem take_requires_nonempty (T : Type) :
    (∀ (q : ConcurrentQueue T) (h : q.items ≠ []),
        q.take = some (q.items.head h))
    ∧ (∀ q : ConcurrentQueue T, q.items = [] → q.take = none) := by
  constructor
  · intro q h
    obtain ⟨items⟩ := q
    cases items with
    | nil => exact absurd rfl h
    | cons y rest => rfl
  · intro q h
    obtain ⟨items⟩ := q
    cases items with
    | nil => rfl
    | cons y rest => exact absurd h (by simp)

/-- Witness for C10 at concrete queues, discharging the non-emptiness
hypothesis. -/
theorem take_requires_nonempty_witness :
    (⟨[7, 8]⟩ : ConcurrentQueue ℕ).items ≠ []
    ∧ (⟨[7, 8]⟩ : ConcurrentQueue ℕ).take = some 7
    ∧ (⟨[]⟩ : ConcurrentQueue ℕ).take = none := by
  refine ⟨by decide, ?_, (take_requires_nonempty ℕ).2 ⟨[]⟩ rfl⟩
  simpa using (take_requires_nonempty ℕ).1 ⟨[7, 8]⟩ (by decide)

/-- C2 counterexample: with configured minimum level Warn, a Debug message
submitted through the public entry point `log` is enqueued, although
Warn ≤ Debug fails under the level ordering — refuting the claim that every
public logging entry point, `log` included, emits exactly when M ≤ L. -/
theorem log_entry_point_unfiltered_cex :
    levelLE .Warn .Debug = false
    ∧ (Logger.log ⟨[]⟩ .Debug "2024-01-01 00:00:00" ["msg"]).items
        = [formatLine .Debug "2024-01-01 00:00:00" ["msg"]] :=
  ⟨rfl, rfl⟩

/-- C2 (amended): the level filter lives in the five helper entry points
only: a message submitted through debug/info/warn/error/fatal is enqueued
exactly when the configured minimum M satisfies M ≤ L under
Debug < Info < Warn < Error < Fatal — in particular M = Warn passes
Warn/Error/Fatal and suppresses Debug/Info — while a message submitted
directly through `log` is always enqueued, whatever M is. -/
theorem helper_entry_points_filter (m : LogLevel) (q : ConcurrentQueue String)
    (now : String) (args : List String) (lvl : LogLevel) :
    ((Logger.debug m q now args).items
      = if levelLE m .Debug then q.items ++ [formatLine .Debug now args]
        else q.items)
    ∧ ((Logger.info m q now args).items
      = if levelLE m .Info then q.items ++ [formatLine .Info now args]
        else q.items)
    ∧ ((Logger.warn m q now args).items
      = if levelLE m .Warn then q.items ++ [formatLine .Warn now args]
        else q.items)
    ∧ ((Logger.error m q now args).items
      = if levelLE m .Error then q.items ++ [formatLine .Error now args]
        else q.items)
    ∧ ((Logger.fatal m q now args).items
      = if levelLE m .Fatal then q.items ++ [formatLine .Fatal now args]
        else q.items)
    ∧ (Logger.log q lvl now args).items = q.items ++ [formatLine lvl now args]
    ∧ (levelLE .Warn .Warn = true ∧ levelLE .Warn .Error = true
        ∧ levelLE .Warn .Fatal = true ∧ levelLE .Warn .Debug = false
        ∧ levelLE .Warn .Info = false) := by
  refine ⟨?_, ?_, ?_, ?_, ?_, rfl, by decide⟩ <;>
    simp [Logger.debug, Logger.info, Logger.warn, Logger.error, Logger.fatal,
      Logger.log, ConcurrentQueue.enqueue, apply_ite ConcurrentQueue.items]

/-- C1 counterexample: a tick whose wall-clock hour and minute equal the
configured checkpoint, taken while the file size (10) already exceeds the
threshold (5 bytes), invokes the rotation callback twice — the size check is
not skipped on a checkpoint tick and the callback is not invoked at most
once. -/
theorem checkpoint_tick_double_callback_cex :
    isTimeToCallback ⟨⟨5, .B⟩, some ⟨12, 30, 0⟩⟩ ⟨12, 30, 0⟩ 10 = 2
    ∧ ¬ isTimeToCallback ⟨⟨5, .B⟩, some ⟨12, 30, 0⟩⟩ ⟨12, 30, 0⟩ 10 ≤ 1 := by
  decide

/-- C1 (amended): on a tick where the configured checkpoint matches the
current hour and minute the callback is invoked, but the size check is not
skipped — it runs in addition, so the callback fires a second time exactly
when the file size also exceeds the threshold; on a tick without a checkpoint
match the callback is invoked exactly when the size exceeds the threshold
(and not at all otherwise); the callback is invoked at most twice per
tick. -/
theorem fileWatcher_tick_callbacks (s : FileWatcherSettings) (t : Time)
    (sz : Nat) :
    (checkPointMatches s t = true →
        isTimeToCallback s t sz
          = 1 + (if sz > s.maxFileSize.bsize then 1 else 0))
    ∧ (checkPointMatches s t = false →
        (isTimeToCallback s t sz = 1 ↔ sz > s.maxFileSize.bsize)
        ∧ (isTimeToCallback s t sz = 0 ↔ ¬ sz > s.maxFileSize.bsize))
    ∧ isTimeToCallback s t sz ≤ 2 := by
  unfold isTimeToCallback
  refine ⟨fun h => by rw [h]; simp, fun h => by rw [h]; simp, ?_⟩
  split <;> split <;> simp

/-- Witness for C1 (amended) at concrete ticks, discharging the checkpoint
hypotheses of both branches. -/
theorem fileWatcher_tick_callbacks_witness :
    checkPointMatches ⟨⟨5, .B⟩, some ⟨1, 2, 0⟩⟩ ⟨1, 2, 0⟩ = true
    ∧ isTimeToCallback ⟨⟨5, .B⟩, some ⟨1, 2, 0⟩⟩ ⟨1, 2, 0⟩ 3
        = 1 + (if 3 > (⟨5, .B⟩ : FileSize).bsize then 1 else 0)
    ∧ checkPointMatches ⟨⟨5, .B⟩, none⟩ ⟨1, 2, 0⟩ = false
    ∧ (isTimeToCallback ⟨⟨5, .B⟩, none⟩ ⟨1, 2, 0⟩ 9 = 1
        ↔ 9 > (⟨5, .B⟩ : FileSize).bsize) := by
  refine ⟨by decide, ?_, by decide, ?_⟩
  · exact (fileWatcher_tick_callbacks ⟨⟨5, .B⟩, some ⟨1, 2, 0⟩⟩ ⟨1, 2, 0⟩ 3).1
      (by decide)
  · exact ((fileWatcher_tick_callbacks ⟨⟨5, .B⟩, none⟩ ⟨1, 2, 0⟩ 9).2.1
      (by decide)).1

/-- C4 counterexample: a sweep over two stale pattern-matching files in which
deleting the first one fails removes nothing at all — the second file, whose
own deletion would succeed, is left unprocessed, refuting the claim that a
deletion failure does not abort the remaining deletions of the sweep. -/
theorem sweep_abort_on_failure_cex :
    removeOldLogFiles
        [⟨"2024-01-01.log.1".toList, 1000, true⟩,
         ⟨"2024-01-02.log.1".toList, 1000, true⟩]
        10 LOG_FILE_FORMAT
        (fun f => f.name = "2024-01-01.log.1".toList) = []
    ∧ (⟨"2024-01-02.log.1".toList, 1000, true⟩ : DirFile)
        ∈ filesOlderThan
            [⟨"2024-01-01.log.1".toList, 1000, true⟩,
             ⟨"2024-01-02.log.1".toList, 1000, true⟩]
            10 LOG_FILE_FORMAT := by
  decide

/-- Deletion loop abort: when every file before `f` deletes successfully and
deleting `f` fails, exactly the files before `f` are removed. -/
theorem removeLoop_append_failure (removeFails : DirFile → Bool)
    (pre post : List DirFile) (f : DirFile)
    (hpre : ∀ x ∈ pre, removeFails x = false) (hf : removeFails f = true) :
    removeLoop removeFails (pre ++ f :: post) = pre := by
  induction pre with
  | nil => simp [removeLoop, hf]
  | cons a as ih =>
    have ha : removeFails a = false := hpre a (List.mem_cons_self a as)
    simp only [List.cons_append, removeLoop, ha, Bool.false_eq_true,
      if_false, List.append_eq]
    rw [ih (fun x hx => hpre x (List.mem_cons_of_mem a hx))]

/-- C4 (amended): a deletion failure is reported but aborts the remainder of
the sweep, because the try block wraps the whole deletion loop: when the
files selected for deletion are `pre ++ f :: post`, every deletion in `pre`
succeeds and deleting `f` fails, exactly the files of `pre` are removed and
nothing in `f :: post` is processed in that sweep. -/
theorem sweep_aborts_after_first_failure (files : List DirFile) (limit : Nat)
    (pat : List CharClass) (removeFails : DirFile → Bool)
    (pre post : List DirFile) (f : DirFile)
    (hsel : filesOlderThan files limit pat = pre ++ f :: post)
    (hpre : ∀ x ∈ pre, removeFails x = false) (hf : removeFails f = true) :
    removeOldLogFiles files limit pat removeFails = pre := by
  unfold removeOldLogFiles
  rw [hsel]
  exact removeLoop_append_failure removeFails pre post f hpre hf

/-- Witness for C4 (amended) at a concrete sweep, discharging the selection
and failure hypotheses. -/
theorem sweep_aborts_after_first_failure_witness :
    removeOldLogFiles
        [⟨"2024-01-02.log.1".toList, 1000, true⟩,
         ⟨"2024-01-01.log.1".toList, 1000, true⟩,
         ⟨"2024-01-03.log.1".toList, 1000, true⟩]
        10 LOG_FILE_FORMAT
        (fun f => f.name = "2024-01-01.log.1".toList)
      = [⟨"2024-01-02.log.1".toList, 1000, true⟩] := by
  refine sweep_aborts_after_first_failure _ 10 LOG_FILE_FORMAT _
    [⟨"2024-01-02.log.1".toList, 1000, true⟩]
    [⟨"2024-01-03.log.1".toList, 1000, true⟩]
    ⟨"2024-01-01.log.1".toList, 1000, true⟩ (by decide) ?_ (by decide)
  intro x hx
  rw [List.mem_singleton] at hx
  subst hx
  decide

/-- Length lemma: a fixed-length pattern matches only strings of exactly its
own length. -/
theorem regexMatchFixed_length : ∀ (p : List CharClass) (s : List Char),
    regexMatchFixed p s = true → s.length = p.length
  | [], [], _ => rfl
  | [], _ :: _, h => by simp [regexMatchFixed] at h
  | _ :: _, [], h => by simp [regexMatchFixed] at h
  | pc :: ps, c :: cs, h => by
    simp only [regexMatchFixed, Bool.and_eq_true] at h
    simp [regexMatchFixed_length ps cs h.2]

/-- Whatever the deletion loop removes was among the listed files. -/
theorem mem_of_mem_removeLoop (removeFails : DirFile → Bool) :
    ∀ (l : List DirFile) (x : DirFile),
      x ∈ removeLoop removeFails l → x ∈ l := by
  intro l
  induction l with
  | nil => intro x h; simp [removeLoop] at h
  | cons f rest ih =>
    intro x h
    by_cases hf : removeFails f = true
    · simp [removeLoop, hf] at h
    · simp [removeLoop, hf] at h
      rcases h with h | h
      · exact h ▸ List.mem_cons_self f rest
      · exact List.mem_cons_of_mem f (ih x h)

/-- C5: in a retention sweep run with the rotated-file pattern, a regular
file is selected for deletion exactly when its name matches
`LOG_FILE_FORMAT` and its last-modified age strictly exceeds the configured
expiration; and any file named like the active sink — `YYYY-MM-DD.log` with
no numeric suffix, length 14 — can never match the 16-atom pattern, is never
selected, and is never removed by the sweep, whatever deletions fail. -/
theorem retention_never_removes_active_file (files : List DirFile)
    (limit : Nat) (f : DirFile) (hreg : f.isRegularFile = true)
    (g : DirFile) (hdaily : isDailyLogName g.name = true)
    (removeFails : DirFile → Bool) :
    (f ∈ filesOlderThan files limit LOG_FILE_FORMAT
      ↔ f ∈ files ∧ regexMatchFixed LOG_FILE_FORMAT f.name = true
          ∧ limit < f.ageMillis)
    ∧ regexMatchFixed LOG_FILE_FORMAT g.name = false
    ∧ g ∉ filesOlderThan files limit LOG_FILE_FORMAT
    ∧ g ∉ removeOldLogFiles files limit LOG_FILE_FORMAT removeFails := by
  have hgmatch : regexMatchFixed LOG_FILE_FORMAT g.name = false := by
    have hlen : g.name.length = 14 := by
      simpa [dailyLogNamePattern] using
        regexMatchFixed_length dailyLogNamePattern g.name hdaily
    by_contra hc
    rw [Bool.not_eq_false] at hc
    have h16 := regexMatchFixed_length LOG_FILE_FORMAT g.name hc
    rw [hlen] at h16
    simp [LOG_FILE_FORMAT] at h16
  have hgsel : g ∉ filesOlderThan files limit LOG_FILE_FORMAT := by
    intro hmem
    rw [filesOlderThan, List.mem_filter] at hmem
    simp [hgmatch, show LOG_FILE_FORMAT.isEmpty = false from rfl] at hmem
  refine ⟨?_, hgmatch, hgsel,
    fun hmem => hgsel (mem_of_mem_removeLoop removeFails _ g hmem)⟩
  rw [filesOlderThan, List.mem_filter]
  simp [hreg, isFileOlderThan, show LOG_FILE_FORMAT.isEmpty = false from rfl]

/-- Witness for C5 at a concrete sweep: a stale rotated file is selected and
the equally stale active file `2024-01-01.log` is not. -/
theorem retention_never_removes_active_file_witness :
    (⟨"2024-01-01.log.1".toList, 999999, true⟩ : DirFile).isRegularFile = true
    ∧ isDailyLogName "2024-01-01.log".toList = true
    ∧ (⟨"2024-01-01.log".toList, 999999, true⟩ : DirFile)
        ∉ filesOlderThan
            [⟨"2024-01-01.log".toList, 999999, true⟩,
             ⟨"2024-01-01.log.1".toList, 999999, true⟩]
            10 LOG_FILE_FORMAT
    ∧ (⟨"2024-01-01.log".toList, 999999, true⟩ : DirFile)
        ∉ removeOldLogFiles
            [⟨"2024-01-01.log".toList, 999999, true⟩,
             ⟨"2024-01-01.log.1".toList, 999999, true⟩]
            10 LOG_FILE_FORMAT (fun _ => false) := by
  have h := retention_never_removes_active_file
    [⟨"2024-01-01.log".toList, 999999, true⟩,
     ⟨"2024-01-01.log.1".toList, 999999, true⟩]
    10 ⟨"2024-01-01.log.1".toList, 999999, true⟩ rfl
    ⟨"2024-01-01.log".toList, 999999, true⟩ (by decide) (fun _ => false)
  exact ⟨rfl, by decide, h.2.2.1, h.2.2.2⟩

/-- C3: on a day whose date string is `d`, when the file `d.log` already
exists in the directory, `reopen` renames it to `d.log.N` where `N` is the
count of entries containing `d.log` (at least 1 — the 1-based same-day
collision count) and then creates a fresh `d.log`; in particular two reopen
calls on the same simulated day 2024-01-01, starting from an empty
directory, leave exactly `2024-01-01.log.1` and a fresh `2024-01-01.log`. -/
theorem reopen_same_day_rotation (dir : List String) (d : String)
    (h : (d ++ ".log") ∈ dir) :
    (∃ dir2, reopen dir d = .ok dir2
      ∧ (d ++ ".log" ++ "." ++ toString (anyFileExists dir (d ++ ".log")))
          ∈ dir2
      ∧ 1 ≤ anyFileExists dir (d ++ ".log")
      ∧ (d ++ ".log") ∈ dir2)
    ∧ (reopen [] "2024-01-01").bind (fun s => reopen s "2024-01-01")
        = .ok ["2024-01-01.log.1", "2024-01-01.log"] := by
  refine ⟨?_, rfl⟩
  have hself : containsStr (d ++ ".log") (d ++ ".log") = true :=
    decide_eq_true (List.infix_refl _)
  have hcount : 1 ≤ anyFileExists dir (d ++ ".log") := by
    unfold anyFileExists
    exact List.length_pos.mpr
      (List.ne_nil_of_mem (List.mem_filter.mpr ⟨h, hself⟩))
  refine ⟨initializeFile
      (renameFile dir (d ++ ".log")
        (d ++ ".log" ++ "." ++ toString (anyFileExists dir (d ++ ".log"))))
      (d ++ ".log"), ?_, ?_, hcount, ?_⟩
  · unfold reopen
    rw [if_pos (Nat.one_le_iff_ne_zero.mp hcount), if_pos h]
  · have h1 : (d ++ ".log" ++ "." ++ toString (anyFileExists dir (d ++ ".log")))
        ∈ renameFile dir (d ++ ".log")
            (d ++ ".log" ++ "." ++ toString (anyFileExists dir (d ++ ".log"))) :=
      List.mem_map.mpr ⟨d ++ ".log", h, by rw [if_pos rfl]⟩
    unfold initializeFile
    split
    · exact h1
    · exact List.mem_append_left _ h1
  · unfold initializeFile
    split
    · assumption
    · exact List.mem_append_right _ (List.mem_singleton.mpr rfl)

/-- Witness for C3 at a concrete directory already holding the day file,
discharging the existence hypothesis. -/
theorem reopen_same_day_rotation_witness :
    ("2024-01-01" ++ ".log") ∈ ["2024-01-01.log"]
    ∧ ∃ dir2, reopen ["2024-01-01.log"] "2024-01-01" = .ok dir2
        ∧ ("2024-01-01" ++ ".log" ++ "."
            ++ toString (anyFileExists ["2024-01-01.log"] ("2024-01-01" ++ ".log")))
          ∈ dir2
        ∧ 1 ≤ anyFileExists ["2024-01-01.log"] ("2024-01-01" ++ ".log")
        ∧ ("2024-01-01" ++ ".log") ∈ dir2 := by
  refine ⟨by decide, ?_⟩
  exact (reopen_same_day_rotation ["2024-01-01.log"] "2024-01-01"
    (by decide)).1

/-- C7: the configuration value `d` for RemoveLogsOlderThan — a unit letter
with no digits — is accepted by the permissive regex (`\d*` allows an empty
digit group), so `std::stoull` runs on the empty string and throws
`std::invalid_argument`; `load` catches only `std::bad_any_cast`, so the
error escapes `load` instead of being reported with the default retained:
the malformed value is fatal to the caller of `load`. -/
theorem removeLogsOlderThan_unit_only_escapes_load :
    parseRemoveLogsOlderThan ['d'] = .error "invalid_argument"
    ∧ loadRemoveLogsOlderThanStep 0 ['d'] = .error "invalid_argument" :=
  ⟨rfl, rfl⟩

/-- C8: `MaxLogFileSize 100MiB` parses to size 100 unit MiB, whose byte size
is exactly 100 × 1,048,576 = 104,857,600; `RemoveLogsOlderThan 2d` parses to
exactly 172,800,000 milliseconds; and a value whose unit token is outside
the recognized set leaves the configured default unchanged, for both keys:
an unrecognized file-size unit makes `parseFileSize` return `nullopt` and
the load step keep the default, and an unrecognized age unit makes the regex
fail, `parseRemoveLogsOlderThan` return 0 and the load step keep the
default. -/
theorem size_and_age_value_parsing (s : List Char) (deflt : FileSize)
    (h1 : 0 < (s.takeWhile Char.isDigit).length)
    (h2 : (s.takeWhile Char.isDigit).length < s.length)
    (h3 : lookupSizeUnit (s.drop (s.takeWhile Char.isDigit).length) = none)
    (ds : List Char) (u : Char) (hu : u ∉ removeLogsUnits) (dn : Nat) :
    parseFileSize "100MiB".toList = some ⟨100, .MiB⟩
    ∧ (⟨100, .MiB⟩ : FileSize).bsize = 104857600
    ∧ 104857600 = 100 * 1048576
    ∧ parseRemoveLogsOlderThan "2d".toList = .ok 172800000
    ∧ 172800000 = 2 * 86400000
    ∧ parseFileSize s = none
    ∧ loadMaxLogFileSizeStep deflt s = deflt
    ∧ parseRemoveLogsOlderThan (ds ++ [u]) = .ok 0
    ∧ loadRemoveLogsOlderThanStep dn (ds ++ [u]) = .ok dn := by
  have hps : parseFileSize s = none := by
    simp only [parseFileSize]
    rw [if_pos ⟨h1, h2⟩]
    split
    · rfl
    · split
      · rfl
      · rw [h3]
  have hpr : parseRemoveLogsOlderThan (ds ++ [u]) = .ok 0 := by
    simp only [parseRemoveLogsOlderThan, List.getLast?_concat,
      List.dropLast_concat]
    rw [if_neg (fun hc => hu hc.1)]
  refine ⟨by decide, by decide, by decide, rfl, by decide, hps, ?_,
    hpr, ?_⟩
  · simp only [loadMaxLogFileSizeStep, hps]
  · simp only [loadRemoveLogsOlderThanStep, hpr, ne_eq,
      not_true_eq_false, if_false, reduceIte]

/-- Witness for C8 at the concrete unknown-unit inputs `100XB` (file size)
and `2x` (retention age), discharging the digit and unit hypotheses. -/
theorem size_and_age_value_parsing_witness :
    0 < ("100XB".toList.takeWhile Char.isDigit).length
    ∧ ("100XB".toList.takeWhile Char.isDigit).length < "100XB".toList.length
    ∧ lookupSizeUnit
        ("100XB".toList.drop ("100XB".toList.takeWhile Char.isDigit).length)
        = none
    ∧ ('x' ∉ removeLogsUnits)
    ∧ parseFileSize "100XB".toList = none
    ∧ loadMaxLogFileSizeStep ⟨50, .MB⟩ "100XB".toList = ⟨50, .MB⟩
    ∧ parseRemoveLogsOlderThan (['2'] ++ ['x']) = .ok 0
    ∧ loadRemoveLogsOlderThanStep 0 (['2'] ++ ['x']) = .ok 0 := by
  have h := size_and_age_value_parsing "100XB".toList ⟨50, .MB⟩
    (by decide) (by decide) (by decide) ['2'] 'x' (by decide) 0
  exact ⟨by decide, by decide, by decide, by decide,
    h.2.2.2.2.2.1, h.2.2.2.2.2.2.1, h.2.2.2.2.2.2.2.1, h.2.2.2.2.2.2.2.2⟩

/-- C9: any input that consists entirely of digits — the empty string
included — makes `parseFileSize` return `some` of the default-constructed
`FileSize` (size 1, unit B): the digit-only loop consumes the whole string,
the `0 < it < length` guard fails, and the digits are ignored rather than
the input rejected with `nullopt` or read as a byte count. -/
theorem all_digit_size_input_gives_default (s : List Char)
    (h : s.all Char.isDigit = true) :
    parseFileSize s = some FileSize.defaultValue := by
  have htw : s.takeWhile Char.isDigit = s :=
    List.takeWhile_eq_self_iff.mpr (by simpa [List.all_eq_true] using h)
  simp only [parseFileSize, htw]
  rw [if_neg fun hc => absurd hc.2 (lt_irrefl _)]

/-- Witness for C9 at the concrete all-digit inputs `12345` and the empty
string, discharging the digit hypothesis. -/
theorem all_digit_size_input_gives_default_witness :
    "12345".toList.all Char.isDigit = true
    ∧ parseFileSize "12345".toList = some FileSize.defaultValue
    ∧ parseFileSize "".toList = some FileSize.defaultValue :=
  ⟨by decide, all_digit_size_input_gives_default "12345".toList (by decide),
    all_digit_size_input_gives_default "".toList (by decide)⟩

end Logcplus
